import Mathlib

/-!
# DFRobot_IIC_Serial: addressing, register map, frame formats, baud rate, receive cache

A shallow embedding of `DFRobot_IIC_Serial.h` (WK2132 I2C to dual-UART bridge).
Bytes are natural numbers below 256.  A packed C bit-field structure is embedded by
allocating its members from bit 0 upwards in declaration order, which is how the
target compilers of the library lay out `__attribute__ ((packed))` bit-fields.
-/

namespace DFRobot_IIC_Serial

/-! ## Constants of the header -/

def REG_WK2132_GENA : Nat := 0x00
def REG_WK2132_GRST : Nat := 0x01
def REG_WK2132_GMUT : Nat := 0x02
def REG_WK2132_GIER : Nat := 0x10
def REG_WK2132_GIFR : Nat := 0x11
def REG_WK2132_SPAGE : Nat := 0x03
def REG_WK2132_SCR : Nat := 0x04
def REG_WK2132_LCR : Nat := 0x05
def REG_WK2132_FCR : Nat := 0x06
def REG_WK2132_SIER : Nat := 0x07
def REG_WK2132_SIFR : Nat := 0x08
def REG_WK2132_TFCNT : Nat := 0x09
def REG_WK2132_RFCNT : Nat := 0x0A
def REG_WK2132_FSR : Nat := 0x0B
def REG_WK2132_LSR : Nat := 0x0C
def REG_WK2132_FDAT : Nat := 0x0D
def REG_WK2132_BAUD1 : Nat := 0x04
def REG_WK2132_BAUD0 : Nat := 0x05
def REG_WK2132_PRES : Nat := 0x06
def REG_WK2132_RFTL : Nat := 0x07
def REG_WK2132_TFTL : Nat := 0x08

def SUBUART_CHANNEL_1 : Nat := 0x00
def SUBUART_CHANNEL_2 : Nat := 0x01
def SUBUART_CHANNEL_ALL : Nat := 0x11

def IIC_SERIAL_8N1 : Nat := 0x00
def IIC_SERIAL_8N2 : Nat := 0x01
def IIC_SERIAL_8Z1 : Nat := 0x08
def IIC_SERIAL_8Z2 : Nat := 0x09
def IIC_SERIAL_8O1 : Nat := 0x0A
def IIC_SERIAL_8O2 : Nat := 0x0B
def IIC_SERIAL_8E1 : Nat := 0x0C
def IIC_SERIAL_8E2 : Nat := 0x0D
def IIC_SERIAL_8F1 : Nat := 0x0E
def IIC_SERIAL_8F2 : Nat := 0x0F

def ERR_OK : Int := 0
def ERR_REGDATA : Int := -1
def FOSC : Nat := 14745600
def OBJECT_REGISTER : Nat := 0x00
def OBJECT_FIFO : Nat := 0x01
def IIC_BUFFER_SIZE : Nat := 32

/-- The default value of the constructor parameter `addr`. -/
def defaultAddr : Nat := 0x0E

/-! ## Packed bit-fields -/

/-- The value a member of `width` bits can hold: an assignment keeps the low bits. -/
def truncField (width v : Nat) : Nat := v % 2 ^ width

/-- The contribution to the byte of a member that starts at bit `off`. -/
def placeField (off width v : Nat) : Nat := truncField width v <<< off

/-- The member of `width` bits that starts at bit `off`, read out of a byte. -/
def readField (off width b : Nat) : Nat := (b >>> off) % 2 ^ width

/-- The structure `sIICAddr_t`: `type : 1`, `uart : 2`, `addrPre : 5`. -/
structure sIICAddr_t where
  type : Nat
  uart : Nat
  addrPre : Nat
deriving DecidableEq, Repr

/-- The byte that holds a `sIICAddr_t` (what `*(uint8_t *)&addr` reads). -/
def sIICAddr_t.toByte (a : sIICAddr_t) : Nat :=
  placeField 0 1 a.type ||| placeField 1 2 a.uart ||| placeField 3 5 a.addrPre

/-- Modelled from the spec: the body of `updateAddr` is in `DFRobot_IIC_Serial.cpp`, which
is not among the sources; the header declares it and the bit-field `sIICAddr_t` it fills.
Spec 4.1: the output is the concatenation of the board-select bits (high 5 bits), the
channel index (bits 2..1) and the target object (bit 0). -/
def updateAddr (pre subUartChannel obj : Nat) : Nat :=
  sIICAddr_t.toByte { type := obj, uart := subUartChannel, addrPre := pre }

/-- The constructor documentation's table of `addr`: the row `0 0 0 0 | A1 A0 1 0`. -/
def constructorAddr (a1 a0 : Nat) : Nat := a1 * 8 + a0 * 4 + 1 * 2 + 0

/-! ## Frame formats and the LCR register -/

/-- The parity letter of a format name. -/
inductive Parity where
  | N
  | Z
  | O
  | E
  | F
deriving DecidableEq, Repr

/-- The bit PAEN of the LCR format field (bit 3). -/
def lcrPAEN (format : Nat) : Nat := readField 3 1 format

/-- The bits PAM of the LCR format field (bits 2..1). -/
def lcrPAM (format : Nat) : Nat := readField 1 2 format

/-- The bit STPL of the LCR format field (bit 0). -/
def lcrSTPL (format : Nat) : Nat := readField 0 1 format

/-- The parity mode an LCR format field selects: none when PAEN is 0, else by PAM
(00 zero, 01 odd, 10 even, 11 one). -/
def lcrParity (format : Nat) : Parity :=
  if lcrPAEN format = 0 then Parity.N
  else match lcrPAM format with
    | 0 => Parity.Z
    | 1 => Parity.O
    | 2 => Parity.E
    | _ => Parity.F

/-- The number of stop bits an LCR format field selects: STPL 0 is 1 bit, 1 is 2 bits. -/
def lcrStopBits (format : Nat) : Nat := if lcrSTPL format = 0 then 1 else 2

/-- The ten format macros with the parity letter and the stop-bit digit of their names. -/
def frameFormats : List (Nat × Parity × Nat) :=
  [ (IIC_SERIAL_8N1, Parity.N, 1), (IIC_SERIAL_8N2, Parity.N, 2),
    (IIC_SERIAL_8Z1, Parity.Z, 1), (IIC_SERIAL_8Z2, Parity.Z, 2),
    (IIC_SERIAL_8O1, Parity.O, 1), (IIC_SERIAL_8O2, Parity.O, 2),
    (IIC_SERIAL_8E1, Parity.E, 1), (IIC_SERIAL_8E2, Parity.E, 2),
    (IIC_SERIAL_8F1, Parity.F, 1), (IIC_SERIAL_8F2, Parity.F, 2) ]

/-- The PAEN and PAM values the header documents for a parity letter. -/
def parityBits : Parity → Nat × Nat
  | Parity.N => (0, 0)
  | Parity.Z => (1, 0)
  | Parity.O => (1, 1)
  | Parity.E => (1, 2)
  | Parity.F => (1, 3)

/-! ## The register map -/

/-- The four groups of register macros, after the comments that head them. -/
inductive RegBank where
  | global
  | pageControl
  | spage0
  | spage1
deriving DecidableEq, Repr

/-- The logical registers the header names. -/
inductive Reg where
  | GENA | GRST | GMUT | GIER | GIFR
  | SPAGE
  | SCR | LCR | FCR | SIER | SIFR | TFCNT | RFCNT | FSR | LSR | FDAT
  | BAUD1 | BAUD0 | PRES | RFTL | TFTL
deriving DecidableEq, Repr, Fintype

/-- The offset macro of each register. -/
def Reg.offset : Reg → Nat
  | Reg.GENA => REG_WK2132_GENA
  | Reg.GRST => REG_WK2132_GRST
  | Reg.GMUT => REG_WK2132_GMUT
  | Reg.GIER => REG_WK2132_GIER
  | Reg.GIFR => REG_WK2132_GIFR
  | Reg.SPAGE => REG_WK2132_SPAGE
  | Reg.SCR => REG_WK2132_SCR
  | Reg.LCR => REG_WK2132_LCR
  | Reg.FCR => REG_WK2132_FCR
  | Reg.SIER => REG_WK2132_SIER
  | Reg.SIFR => REG_WK2132_SIFR
  | Reg.TFCNT => REG_WK2132_TFCNT
  | Reg.RFCNT => REG_WK2132_RFCNT
  | Reg.FSR => REG_WK2132_FSR
  | Reg.LSR => REG_WK2132_LSR
  | Reg.FDAT => REG_WK2132_FDAT
  | Reg.BAUD1 => REG_WK2132_BAUD1
  | Reg.BAUD0 => REG_WK2132_BAUD0
  | Reg.PRES => REG_WK2132_PRES
  | Reg.RFTL => REG_WK2132_RFTL
  | Reg.TFTL => REG_WK2132_TFTL

/-- The group each register macro is defined in. -/
def Reg.bank : Reg → RegBank
  | Reg.GENA | Reg.GRST | Reg.GMUT | Reg.GIER | Reg.GIFR => RegBank.global
  | Reg.SPAGE => RegBank.pageControl
  | Reg.SCR | Reg.LCR | Reg.FCR | Reg.SIER | Reg.SIFR
  | Reg.TFCNT | Reg.RFCNT | Reg.FSR | Reg.LSR | Reg.FDAT => RegBank.spage0
  | Reg.BAUD1 | Reg.BAUD0 | Reg.PRES | Reg.RFTL | Reg.TFTL => RegBank.spage1

/-- The enumeration `ePageNumber_t`. -/
inductive ePageNumber_t where
  | page0
  | page1
  | pageTotal
deriving DecidableEq, Repr, Fintype

/-- The enumeration `eGlobalRegType_t`. -/
inductive eGlobalRegType_t where
  | clock
  | rst
  | intrpt
deriving DecidableEq, Repr

/-- A register answers at its offset while page `p` is selected: the global registers and
the page register on every page, a sub-UART register on the page of its group. -/
def Reg.onPage (p : ePageNumber_t) (r : Reg) : Bool :=
  match r.bank with
  | RegBank.global => true
  | RegBank.pageControl => true
  | RegBank.spage0 => decide (p = ePageNumber_t.page0)
  | RegBank.spage1 => decide (p = ePageNumber_t.page1)

/-- The registers of one group, in the order of the header. -/
def regsOfBank (b : RegBank) : List Reg :=
  [ Reg.GENA, Reg.GRST, Reg.GMUT, Reg.GIER, Reg.GIFR, Reg.SPAGE,
    Reg.SCR, Reg.LCR, Reg.FCR, Reg.SIER, Reg.SIFR, Reg.TFCNT, Reg.RFCNT, Reg.FSR,
    Reg.LSR, Reg.FDAT,
    Reg.BAUD1, Reg.BAUD0, Reg.PRES, Reg.RFTL, Reg.TFTL ].filter (fun r => decide (r.bank = b))

/-! ## The FIFO status register -/

/-- The structure `sFsrReg_t`: eight members of one bit each. -/
structure sFsrReg_t where
  tBusy : Bool
  tFull : Bool
  tDat : Bool
  rDat : Bool
  rFpe : Bool
  rFfe : Bool
  rFbi : Bool
  rFoe : Bool
deriving DecidableEq, Repr

/-- The flags of the FSR table in the header comment. -/
inductive FsrFlag where
  | TBUSY | TFULL | TDAT | RDAT | RFPE | RFFE | RFBI | RFOE
deriving DecidableEq, Repr, Fintype

/-- The bit the FSR table of the header comment gives each flag. -/
def FsrFlag.tableBit : FsrFlag → Nat
  | FsrFlag.RFOE => 7
  | FsrFlag.RFBI => 6
  | FsrFlag.RFFE => 5
  | FsrFlag.RFPE => 4
  | FsrFlag.RDAT => 3
  | FsrFlag.TDAT => 2
  | FsrFlag.TFULL => 1
  | FsrFlag.TBUSY => 0

/-- The member of `sFsrReg_t` that carries a flag, after the member comments. -/
def sFsrReg_t.flag (s : sFsrReg_t) : FsrFlag → Bool
  | FsrFlag.TBUSY => s.tBusy
  | FsrFlag.TFULL => s.tFull
  | FsrFlag.TDAT => s.tDat
  | FsrFlag.RDAT => s.rDat
  | FsrFlag.RFPE => s.rFpe
  | FsrFlag.RFFE => s.rFfe
  | FsrFlag.RFBI => s.rFbi
  | FsrFlag.RFOE => s.rFoe

/-- A register byte seen through `sFsrReg_t`: the members in declaration order from bit 0. -/
def sFsrReg_t.ofByte (b : Nat) : sFsrReg_t :=
  { tBusy := decide (readField 0 1 b = 1)
    tFull := decide (readField 1 1 b = 1)
    tDat := decide (readField 2 1 b = 1)
    rDat := decide (readField 3 1 b = 1)
    rFpe := decide (readField 4 1 b = 1)
    rFfe := decide (readField 5 1 b = 1)
    rFbi := decide (readField 6 1 b = 1)
    rFoe := decide (readField 7 1 b = 1) }

/-- The byte that holds a `sFsrReg_t`. -/
def sFsrReg_t.toByte (s : sFsrReg_t) : Nat :=
  placeField 0 1 s.tBusy.toNat ||| placeField 1 1 s.tFull.toNat |||
  placeField 2 1 s.tDat.toNat ||| placeField 3 1 s.rDat.toNat |||
  placeField 4 1 s.rFpe.toNat ||| placeField 5 1 s.rFfe.toNat |||
  placeField 6 1 s.rFbi.toNat ||| placeField 7 1 s.rFoe.toNat

/-! ## The public initialisers -/

/-- The enumeration `eCommunicationMode_t`. -/
inductive eCommunicationMode_t where
  | eNormalMode
deriving DecidableEq, Repr

/-- The enumeration `eLineBreakOutput_t`. -/
inductive eLineBreakOutput_t where
  | eNormal
deriving DecidableEq, Repr

/-- The enumerator value of a communication mode. -/
def eCommunicationMode_t.toNat : eCommunicationMode_t → Nat
  | eCommunicationMode_t.eNormalMode => 0

/-- The enumerator value of a line-break option. -/
def eLineBreakOutput_t.toNat : eLineBreakOutput_t → Nat
  | eLineBreakOutput_t.eNormal => 0

/-- The type of the protected four-argument `begin`, whose body is in the missing
`DFRobot_IIC_Serial.cpp`: it takes the driver state and gives the return code and the new
state. -/
abbrev BeginFull (σ : Type) : Type :=
  Nat → Nat → eCommunicationMode_t → eLineBreakOutput_t → σ → Int × σ

/-- The inline `begin(long unsigned baud)`. -/
def begin_baud {σ : Type} (beginFull : BeginFull σ) (baud : Nat) : σ → Int × σ :=
  beginFull baud IIC_SERIAL_8N1 eCommunicationMode_t.eNormalMode eLineBreakOutput_t.eNormal

/-- The inline `begin(long unsigned baud, uint8_t format)`. -/
def begin_baud_format {σ : Type} (beginFull : BeginFull σ) (baud format : Nat) :
    σ → Int × σ :=
  beginFull baud format eCommunicationMode_t.eNormalMode eLineBreakOutput_t.eNormal

/-! ## The baud rate generator -/

/-- Modelled from the spec: the body of `setSubSerialBaudRate` is in the missing
`DFRobot_IIC_Serial.cpp`.  Spec 4.3 step 2 works with the quotient
oscillatorFrequency / (baudRate * 16), taken here as an exact rational. -/
def baudQuotient (baud : Nat) : ℚ := (FOSC : ℚ) / ((baud : ℚ) * 16)

/-- Modelled from the spec: the integer divisor of `setSubSerialBaudRate` (body missing),
spec 4.3 step 2: round(oscillatorFrequency / (baudRate * 16)) - 1. -/
def baudDivisor (baud : Nat) : ℤ := round (baudQuotient baud) - 1

/-- Modelled from the spec: the clamp to the byte range of the fractional register
(`setSubSerialBaudRate`, body missing). -/
def clampByte (z : ℤ) : ℤ := max 0 (min 255 z)

/-- Modelled from the spec: the fractional part of `setSubSerialBaudRate` (body missing),
spec 4.3 step 2: round(((oscillatorFrequency / (baudRate * 16)) - (divisor + 1)) * 16),
clamped to the byte range. -/
def baudFraction (baud : Nat) : ℤ :=
  clampByte (round ((baudQuotient baud - ((baudDivisor baud : ℚ) + 1)) * 16))

/-- Modelled from the spec: the conversion back of spec 8 (no code of the repository
computes it): oscillatorFrequency / (16 * (divisor + 1 + fraction / 16)). -/
def effectiveBaud (baud : Nat) : ℚ :=
  (FOSC : ℚ) / (16 * ((baudDivisor baud : ℚ) + 1 + (baudFraction baud : ℚ) / 16))

/-- The high byte BAUD1 and the low byte BAUD0 of a divisor. -/
def baudBytes (divisor : ℤ) : ℤ × ℤ := (divisor / 256 % 256, divisor % 256)

/-! ## The local receive cache -/

/-- The macro `SERIAL_RX_BUFFER_SIZE` when the build does not define it: 16 when
`RAMEND - RAMSTART` is below 1023, else 32. -/
def SERIAL_RX_BUFFER_SIZE (ramSpan : Nat) : Nat := if ramSpan < 1023 then 16 else 32

/-- The width of `rx_buffer_index_t`: `uint16_t` above 256 entries, else `uint8_t`. -/
def rx_buffer_index_bits (size : Nat) : Nat := if size > 256 then 16 else 8

/-- A value stored into an `rx_buffer_index_t`. -/
def rx_buffer_index_t (size v : Nat) : Nat := v % 2 ^ rx_buffer_index_bits size

/-- The members `_rx_buffer_head`, `_rx_buffer_tail` and `_rx_buffer`. -/
structure RxCache where
  _rx_buffer_head : Nat
  _rx_buffer_tail : Nat
  _rx_buffer : Nat → Nat

/-- The cache of a new object. -/
def RxCache.init : RxCache :=
  { _rx_buffer_head := 0, _rx_buffer_tail := 0, _rx_buffer := fun _ => 0 }

/-- Modelled from the spec: spec 3, the cache is empty when head == tail (the code that
tests it is in the missing `DFRobot_IIC_Serial.cpp`). -/
def RxCache.isEmpty (c : RxCache) : Bool := c._rx_buffer_head == c._rx_buffer_tail

/-- Modelled from the spec: spec 3, the cache is full when advancing tail would equal head
(the code that tests it is in the missing `DFRobot_IIC_Serial.cpp`). -/
def RxCache.isFull (size : Nat) (c : RxCache) : Bool :=
  (c._rx_buffer_tail + 1) % size == c._rx_buffer_head

/-- Modelled from the spec: storing a byte pulled off the bus (the code is in the missing
`DFRobot_IIC_Serial.cpp`).  Spec 4.4 and 7: a full cache declines the byte; otherwise the
byte goes to the slot at tail and tail advances modulo the capacity. -/
def RxCache.store (size : Nat) (c : RxCache) (b : Nat) : RxCache :=
  if c.isFull size then c
  else
    { _rx_buffer_head := c._rx_buffer_head
      _rx_buffer_tail := rx_buffer_index_t size ((c._rx_buffer_tail + 1) % size)
      _rx_buffer := fun i => if i = c._rx_buffer_tail then b else c._rx_buffer i }

/-- Modelled from the spec: the head byte of the cache, if any, as `peek()` returns it
(the code is in the missing `DFRobot_IIC_Serial.cpp`). -/
def RxCache.front (c : RxCache) : Option Nat :=
  if c.isEmpty then none else some (c._rx_buffer c._rx_buffer_head)

/-- Modelled from the spec: removing the head byte, as `read()` does after returning it
(the code is in the missing `DFRobot_IIC_Serial.cpp`); head advances modulo the capacity. -/
def RxCache.remove (size : Nat) (c : RxCache) : RxCache :=
  if c.isEmpty then c
  else { c with _rx_buffer_head := rx_buffer_index_t size ((c._rx_buffer_head + 1) % size) }

/-- The two operations on the cache. -/
inductive RxOp where
  | store (b : Nat)
  | remove
deriving DecidableEq, Repr

/-- One operation on the cache, together with the bytes that are stored and not yet
removed (oldest first): a store that the cache takes appends its byte, a removal from a
cache that is not empty drops the oldest. -/
def RxCache.step (size : Nat) (s : RxCache × List Nat) : RxOp → RxCache × List Nat
  | RxOp.store b => (s.1.store size b, if s.1.isFull size then s.2 else s.2 ++ [b])
  | RxOp.remove => (s.1.remove size, if s.1.isEmpty then s.2 else s.2.tail)

/-- The state after a sequence of operations on the cache of a new object. -/
def RxCache.run (size : Nat) (ops : List RxOp) : RxCache × List Nat :=
  ops.foldl (RxCache.step size) (RxCache.init, [])

/-- The number of cached bytes by the indices: (tail - head) mod capacity. -/
def RxCache.count (size : Nat) (c : RxCache) : ℤ :=
  ((c._rx_buffer_tail : ℤ) - (c._rx_buffer_head : ℤ)) % (size : ℤ)

/-- The invariant of the receive cache for a capacity `size`, with the bytes `s.2` that are
stored and not yet removed: both indices are below the capacity, the number of those bytes
is the distance from head to tail, and they lie in the slots from head on, oldest first. -/
def RxCache.Inv (size : Nat) (s : RxCache × List Nat) : Prop :=
  s.1._rx_buffer_head < size ∧ s.1._rx_buffer_tail < size ∧
  s.2.length = (s.1._rx_buffer_tail + size - s.1._rx_buffer_head) % size ∧
  ∀ i, i < s.2.length → s.2[i]? = some (s.1._rx_buffer ((s.1._rx_buffer_head + i) % size))

/-! ## Address resolution -/

theorem updateAddr_eq_sum : ∀ p < 32, ∀ c < 2, ∀ o < 2,
    updateAddr p c o = p * 8 + c * 2 + o := by
  decide

theorem updateAddr_fields : ∀ p < 32, ∀ c < 2, ∀ o < 2,
    readField 3 5 (updateAddr p c o) = p ∧ readField 1 2 (updateAddr p c o) = c ∧
    readField 0 1 (updateAddr p c o) = o := by
  decide

theorem channel_lt_two (channel : Nat)
    (hch : channel = SUBUART_CHANNEL_1 ∨ channel = SUBUART_CHANNEL_2) : channel < 2 := by
  rcases hch with h | h <;> simp [h, SUBUART_CHANNEL_1, SUBUART_CHANNEL_2]

theorem object_lt_two (obj : Nat)
    (hobj : obj = OBJECT_REGISTER ∨ obj = OBJECT_FIFO) : obj < 2 := by
  rcases hobj with h | h <;> simp [h, OBJECT_REGISTER, OBJECT_FIFO]

/-- Claim C1: for a board-select value below 32, a channel in {0, 1} and an object in
{0, 1}, `updateAddr` gives the byte pre*8 + channel*2 + obj: it is below 256, its bits 7..3
read back as `pre`, its bits 2..1 as the channel and its bit 0 as the object. -/
theorem updateAddr_layout (pre channel obj : Nat) (hpre : pre < 32)
    (hch : channel = SUBUART_CHANNEL_1 ∨ channel = SUBUART_CHANNEL_2)
    (hobj : obj = OBJECT_REGISTER ∨ obj = OBJECT_FIFO) :
    updateAddr pre channel obj = pre * 8 + channel * 2 + obj ∧
    updateAddr pre channel obj < 256 ∧
    readField 3 5 (updateAddr pre channel obj) = pre ∧
    readField 1 2 (updateAddr pre channel obj) = channel ∧
    readField 0 1 (updateAddr pre channel obj) = obj := by
  have hc := channel_lt_two channel hch
  have ho := object_lt_two obj hobj
  have h1 := updateAddr_eq_sum pre hpre channel hc obj ho
  obtain ⟨h2, h3, h4⟩ := updateAddr_fields pre hpre channel hc obj ho
  refine ⟨h1, ?_, h2, h3, h4⟩
  rw [h1]; omega

theorem updateAddr_layout_witness :
    (0x0E < 32 ∧ (1 = SUBUART_CHANNEL_1 ∨ 1 = SUBUART_CHANNEL_2) ∧
      (1 = OBJECT_REGISTER ∨ 1 = OBJECT_FIFO)) ∧
    (updateAddr 0x0E 1 1 = 0x0E * 8 + 1 * 2 + 1 ∧
      updateAddr 0x0E 1 1 < 256 ∧
      readField 3 5 (updateAddr 0x0E 1 1) = 0x0E ∧
      readField 1 2 (updateAddr 0x0E 1 1) = 1 ∧
      readField 0 1 (updateAddr 0x0E 1 1) = 1) :=
  ⟨⟨by decide, Or.inr rfl, Or.inr rfl⟩,
    updateAddr_layout 0x0E 1 1 (by decide) (Or.inr rfl) (Or.inr rfl)⟩

theorem constructorAddr_values : ∀ x < 2, ∀ y < 2,
    constructorAddr x y = 0x02 ∨ constructorAddr x y = 0x06 ∨
    constructorAddr x y = 0x0A ∨ constructorAddr x y = 0x0E := by
  decide

theorem resolved_high_bits : ∀ x < 2, ∀ y < 2, ∀ c < 2, ∀ o < 2,
    readField 7 1 (updateAddr (constructorAddr x y) c o) = 0 ∧
    readField 6 1 (updateAddr (constructorAddr x y) c o) = x ∧
    readField 5 1 (updateAddr (constructorAddr x y) c o) = y := by
  decide

theorem resolved_low_bits : ∀ x < 2, ∀ y < 2, ∀ c < 2, ∀ o < 2,
    readField 4 1 (updateAddr (constructorAddr x y) c o) = 1 ∧
    readField 3 1 (updateAddr (constructorAddr x y) c o) = 0 ∧
    readField 5 2 (updateAddr (constructorAddr x y) c o) = x * 2 + y := by
  decide

/-- Claim C3: the four documented constructor values 0x02, 0x06, 0x0A, 0x0E are the rows
`A1 A0 1 0` of the documentation table for A1A0 = 00, 01, 10, 11, and the default 0x0E is
the row 11; for each of them, every channel in {0, 1} and every object in {0, 1}, the
resolved address has bit 7 = 0, bit 4 = 1, bit 3 = 0 and A1, A0 in its bits 6 and 5. -/
theorem resolved_address_fixed_bits (a1 a0 channel obj : Nat) (h1 : a1 < 2) (h0 : a0 < 2)
    (hch : channel = SUBUART_CHANNEL_1 ∨ channel = SUBUART_CHANNEL_2)
    (hobj : obj = OBJECT_REGISTER ∨ obj = OBJECT_FIFO) :
    [constructorAddr 0 0, constructorAddr 0 1, constructorAddr 1 0, constructorAddr 1 1]
      = [0x02, 0x06, 0x0A, 0x0E] ∧
    defaultAddr = 0x0E ∧ defaultAddr = constructorAddr 1 1 ∧
    (constructorAddr a1 a0 = 0x02 ∨ constructorAddr a1 a0 = 0x06 ∨
      constructorAddr a1 a0 = 0x0A ∨ constructorAddr a1 a0 = 0x0E) ∧
    readField 7 1 (updateAddr (constructorAddr a1 a0) channel obj) = 0 ∧
    readField 6 1 (updateAddr (constructorAddr a1 a0) channel obj) = a1 ∧
    readField 5 1 (updateAddr (constructorAddr a1 a0) channel obj) = a0 ∧
    readField 4 1 (updateAddr (constructorAddr a1 a0) channel obj) = 1 ∧
    readField 3 1 (updateAddr (constructorAddr a1 a0) channel obj) = 0 ∧
    readField 5 2 (updateAddr (constructorAddr a1 a0) channel obj) = a1 * 2 + a0 := by
  have hc := channel_lt_two channel hch
  have ho := object_lt_two obj hobj
  obtain ⟨p7, p6, p5⟩ := resolved_high_bits a1 h1 a0 h0 channel hc obj ho
  obtain ⟨p4, p3, p65⟩ := resolved_low_bits a1 h1 a0 h0 channel hc obj ho
  exact ⟨by decide, by decide, by decide, constructorAddr_values a1 h1 a0 h0,
    p7, p6, p5, p4, p3, p65⟩

theorem resolved_address_fixed_bits_witness :
    (1 < 2 ∧ 0 < 2 ∧ (1 = SUBUART_CHANNEL_1 ∨ 1 = SUBUART_CHANNEL_2) ∧
      (0 = OBJECT_REGISTER ∨ 0 = OBJECT_FIFO)) ∧
    constructorAddr 1 0 = 0x0A ∧
    readField 7 1 (updateAddr (constructorAddr 1 0) 1 0) = 0 ∧
    readField 6 1 (updateAddr (constructorAddr 1 0) 1 0) = 1 ∧
    readField 5 1 (updateAddr (constructorAddr 1 0) 1 0) = 0 ∧
    readField 4 1 (updateAddr (constructorAddr 1 0) 1 0) = 1 ∧
    readField 3 1 (updateAddr (constructorAddr 1 0) 1 0) = 0 :=
  have h := resolved_address_fixed_bits 1 0 1 0 (by decide) (by decide) (Or.inr rfl) (Or.inl rfl)
  ⟨⟨by decide, by decide, Or.inr rfl, Or.inl rfl⟩, by decide,
    h.2.2.2.2.1, h.2.2.2.2.2.1, h.2.2.2.2.2.2.1, h.2.2.2.2.2.2.2.1, h.2.2.2.2.2.2.2.2.1⟩

/-! ## Initialisers and frame formats -/

/-- Claim C4: `begin(baud)` gives what `begin(baud, IIC_SERIAL_8N1)` gives, and
`begin(baud, format)` gives what the four-argument `begin(baud, format, eNormalMode,
eNormal)` gives, return code and state; the format of the one-argument form is the code
0x00, which the LCR layout reads as no parity and 1 stop bit, and the mode and the
line-break option are the enumerators 0. -/
theorem begin_overloads {σ : Type} (beginFull : BeginFull σ) (baud format : Nat) (s : σ) :
    begin_baud beginFull baud s = begin_baud_format beginFull baud IIC_SERIAL_8N1 s ∧
    begin_baud_format beginFull baud format s
      = beginFull baud format eCommunicationMode_t.eNormalMode eLineBreakOutput_t.eNormal s ∧
    begin_baud beginFull baud s
      = beginFull baud 0x00 eCommunicationMode_t.eNormalMode eLineBreakOutput_t.eNormal s ∧
    lcrParity IIC_SERIAL_8N1 = Parity.N ∧ lcrStopBits IIC_SERIAL_8N1 = 1 ∧
    eCommunicationMode_t.eNormalMode.toNat = 0 ∧ eLineBreakOutput_t.eNormal.toNat = 0 :=
  ⟨rfl, rfl, rfl, by decide, by decide, rfl, rfl⟩

/-- Claim C5: there are ten frame-format codes, pairwise distinct, each below 16 and equal
to its own low four bits; the LCR layout (bit 3 PAEN, bits 2..1 PAM, bit 0 STPL) reads each
code as the parity mode and the stop-bit count of its name: N is PAEN 0, and Z, O, E, F are
PAEN 1 with PAM 0, 1, 2, 3; a trailing 1 is STPL 0 and a trailing 2 is STPL 1. -/
theorem frame_format_codes :
    frameFormats.length = 10 ∧
    (frameFormats.map (fun e => e.1)).Nodup ∧
    (∀ e ∈ frameFormats, e.1 < 16 ∧ readField 0 4 e.1 = e.1 ∧
      lcrParity e.1 = e.2.1 ∧ lcrStopBits e.1 = e.2.2 ∧
      (lcrPAEN e.1, if lcrPAEN e.1 = 1 then lcrPAM e.1 else 0) = parityBits e.2.1 ∧
      lcrSTPL e.1 + 1 = e.2.2) := by
  decide

/-! ## Baud rate -/

/-- When the quotient FOSC / (baud * 16) is the whole number `k`, the divisor is `k - 1`
and the fraction is 0. -/
theorem baudDivisor_of_exact (baud k : Nat) (h : baudQuotient baud = (k : ℚ)) :
    baudDivisor baud = (k : ℤ) - 1 ∧ baudFraction baud = 0 := by
  have hd : baudDivisor baud = (k : ℤ) - 1 := by
    unfold baudDivisor
    rw [h, round_natCast]
  refine ⟨hd, ?_⟩
  unfold baudFraction
  rw [hd, h]
  have hz : ((k : ℚ) - (((((k : ℤ) - 1 : ℤ)) : ℚ) + 1)) * 16 = ((0 : ℤ) : ℚ) := by
    push_cast; ring
  rw [hz, round_intCast]
  decide

/-- Claim C6: for the baud rates 9600, 19200 and 115200 the effective baud rate of the
computed divisor and fraction is within 2% of the requested one (it is equal to it), the
divisor is 95, 47 and 7, so it is below 65536 and is recombined from its two bytes, and
the fraction is 0, within a byte. -/
theorem baud_roundtrip (baud : Nat) (h : baud = 9600 ∨ baud = 19200 ∨ baud = 115200) :
    |effectiveBaud baud - (baud : ℚ)| ≤ (baud : ℚ) * 2 / 100 ∧
    effectiveBaud baud = (baud : ℚ) ∧
    0 ≤ baudDivisor baud ∧ baudDivisor baud < 65536 ∧
    (baudBytes (baudDivisor baud)).1 * 256 + (baudBytes (baudDivisor baud)).2
      = baudDivisor baud ∧
    baudDivisor baud + 1 = (FOSC : ℤ) / ((baud : ℤ) * 16) ∧
    0 ≤ baudFraction baud ∧ baudFraction baud < 256 := by
  rcases h with h | h | h <;> subst h
  · have hq : baudQuotient 9600 = ((96 : ℕ) : ℚ) := by norm_num [baudQuotient, FOSC]
    obtain ⟨hd, hf⟩ := baudDivisor_of_exact 9600 96 hq
    unfold effectiveBaud
    rw [hd, hf]
    norm_num [FOSC, baudBytes]
  · have hq : baudQuotient 19200 = ((48 : ℕ) : ℚ) := by norm_num [baudQuotient, FOSC]
    obtain ⟨hd, hf⟩ := baudDivisor_of_exact 19200 48 hq
    unfold effectiveBaud
    rw [hd, hf]
    norm_num [FOSC, baudBytes]
  · have hq : baudQuotient 115200 = ((8 : ℕ) : ℚ) := by norm_num [baudQuotient, FOSC]
    obtain ⟨hd, hf⟩ := baudDivisor_of_exact 115200 8 hq
    unfold effectiveBaud
    rw [hd, hf]
    norm_num [FOSC, baudBytes]

theorem baud_roundtrip_witness :
    (115200 = 9600 ∨ 115200 = 19200 ∨ 115200 = 115200) ∧
    |effectiveBaud 115200 - ((115200 : ℕ) : ℚ)| ≤ ((115200 : ℕ) : ℚ) * 2 / 100 ∧
    baudDivisor 115200 < 65536 :=
  have h := baud_roundtrip 115200 (Or.inr (Or.inr rfl))
  ⟨Or.inr (Or.inr rfl), h.1, h.2.2.2.1⟩

/-! ## The register map -/

/-- Claim C8: the page-1 registers BAUD1, BAUD0, PRES, RFTL, TFTL have the offsets
0x04..0x08, the offsets of SCR, LCR, FCR, SIER, SIFR in that order; the offsets within
page 0 and within page 1 are pairwise distinct; every sub-UART offset is in 0x04..0x0D and
differs from every global and page-register offset; so on a selected page two registers
that answer at the same offset are the same register. -/
theorem register_map :
    (regsOfBank RegBank.spage1).map Reg.offset = [0x04, 0x05, 0x06, 0x07, 0x08] ∧
    regsOfBank RegBank.spage1 = [Reg.BAUD1, Reg.BAUD0, Reg.PRES, Reg.RFTL, Reg.TFTL] ∧
    [Reg.BAUD1, Reg.BAUD0, Reg.PRES, Reg.RFTL, Reg.TFTL].map Reg.offset
      = [Reg.SCR, Reg.LCR, Reg.FCR, Reg.SIER, Reg.SIFR].map Reg.offset ∧
    ((regsOfBank RegBank.spage0).map Reg.offset).Nodup ∧
    ((regsOfBank RegBank.spage1).map Reg.offset).Nodup ∧
    (∀ r : Reg, (r.bank = RegBank.spage0 ∨ r.bank = RegBank.spage1) →
      0x04 ≤ r.offset ∧ r.offset ≤ 0x0D) ∧
    ([Reg.GENA, Reg.GRST, Reg.GMUT, Reg.SPAGE, Reg.GIER, Reg.GIFR].map Reg.offset
      = [0x00, 0x01, 0x02, 0x03, 0x10, 0x11]) ∧
    (∀ r g : Reg, (r.bank = RegBank.spage0 ∨ r.bank = RegBank.spage1) →
      (g.bank = RegBank.global ∨ g.bank = RegBank.pageControl) → r.offset ≠ g.offset) ∧
    (∀ (p : ePageNumber_t) (r1 r2 : Reg), r1.onPage p = true → r2.onPage p = true →
      r1.offset = r2.offset → r1 = r2) := by
  decide

/-! ## The local receive cache -/

theorem SERIAL_RX_BUFFER_SIZE_cases (ramSpan : Nat) :
    SERIAL_RX_BUFFER_SIZE ramSpan = 16 ∨ SERIAL_RX_BUFFER_SIZE ramSpan = 32 := by
  unfold SERIAL_RX_BUFFER_SIZE; split <;> simp

theorem rx_index_cast (size v : Nat) (hs : size = 16 ∨ size = 32) (hv : v < size) :
    rx_buffer_index_t size v = v := by
  rcases hs with rfl | rfl <;> simp [rx_buffer_index_t, rx_buffer_index_bits] <;> omega

theorem RxCache.inv_step (size : Nat) (hs : size = 16 ∨ size = 32) (s : RxCache × List Nat)
    (op : RxOp) (h : RxCache.Inv size s) : RxCache.Inv size (RxCache.step size s op) := by
  obtain ⟨c, l⟩ := s
  obtain ⟨hh, ht, hl, hc⟩ := h
  simp only at hh ht hl hc
  cases op with
  | store b =>
    by_cases hf : (c._rx_buffer_tail + 1) % size = c._rx_buffer_head
    · have : c.isFull size = true := by simp [RxCache.isFull, hf]
      simp only [RxCache.step, RxCache.store, this, if_true]
      exact ⟨hh, ht, hl, hc⟩
    · have hfull : c.isFull size = false := by simp [RxCache.isFull, hf]
      have hlt : (c._rx_buffer_tail + 1) % size < size := by
        rcases hs with rfl | rfl <;> omega
      simp only [RxCache.step, RxCache.store, hfull, Bool.false_eq_true, if_false,
        rx_index_cast size _ hs hlt]
      refine ⟨hh, hlt, ?_, ?_⟩
      · simp only [List.length_append, List.length_singleton]
        rcases hs with rfl | rfl <;> omega
      · intro i hi
        simp only [List.length_append, List.length_singleton] at hi
        by_cases hil : i < l.length
        · have hne : (c._rx_buffer_head + i) % size ≠ c._rx_buffer_tail := by
            rcases hs with rfl | rfl <;> omega
          rw [List.getElem?_append_left hil, hc i hil]
          simp [hne]
        · have hie : i = l.length := by omega
          have heq : (c._rx_buffer_head + i) % size = c._rx_buffer_tail := by
            rcases hs with rfl | rfl <;> omega
          subst hie
          simp [heq]
  | remove =>
    by_cases he : c._rx_buffer_head = c._rx_buffer_tail
    · have : c.isEmpty = true := by simp [RxCache.isEmpty, he]
      simp only [RxCache.step, RxCache.remove, this, if_true]
      exact ⟨hh, ht, hl, hc⟩
    · have hne : c.isEmpty = false := by simp [RxCache.isEmpty, he]
      have hlt : (c._rx_buffer_head + 1) % size < size := by
        rcases hs with rfl | rfl <;> omega
      simp only [RxCache.step, RxCache.remove, hne, Bool.false_eq_true, if_false,
        rx_index_cast size _ hs hlt]
      refine ⟨hlt, ht, ?_, ?_⟩
      · simp only [List.length_tail]
        rcases hs with rfl | rfl <;> omega
      · intro i hi
        simp only [List.length_tail] at hi
        have hi1 : i + 1 < l.length := by omega
        have hidx : ((c._rx_buffer_head + 1) % size + i) % size
            = (c._rx_buffer_head + (i + 1)) % size := by
          rcases hs with rfl | rfl <;> omega
        rw [hidx, ← hc (i + 1) hi1]
        cases l with
        | nil => simp at hi1
        | cons x xs => simp

theorem RxCache.inv_foldl (size : Nat) (hs : size = 16 ∨ size = 32) (ops : List RxOp) :
    ∀ s : RxCache × List Nat, RxCache.Inv size s →
      RxCache.Inv size (ops.foldl (RxCache.step size) s) := by
  induction ops with
  | nil => intro s h; exact h
  | cons op rest ih => intro s h; exact ih _ (RxCache.inv_step size hs s op h)

theorem RxCache.inv_run (size : Nat) (hs : size = 16 ∨ size = 32) (ops : List RxOp) :
    RxCache.Inv size (RxCache.run size ops) := by
  apply RxCache.inv_foldl size hs
  refine ⟨?_, ?_, ?_, ?_⟩
  · rcases hs with rfl | rfl <;> simp [RxCache.init]
  · rcases hs with rfl | rfl <;> simp [RxCache.init]
  · rcases hs with rfl | rfl <;> simp [RxCache.init]
  · intro i hi; simp at hi

/-- Claim C9: in every state the cache of a new object reaches by stores and removals, for
the capacity `SERIAL_RX_BUFFER_SIZE` (16 or 32): both indices are below the capacity and
fit `rx_buffer_index_t`; no byte is cached exactly when head = tail; the cache holds
capacity - 1 bytes exactly when (tail + 1) mod capacity = head; the number of cached bytes
is (tail - head) mod capacity and is at most capacity - 1, 31 for the capacity 32; and the
byte at head is the oldest cached byte. -/
theorem rx_cache_invariant (ramSpan : Nat) (ops : List RxOp) :
    (RxCache.run (SERIAL_RX_BUFFER_SIZE ramSpan) ops).1._rx_buffer_head
      < SERIAL_RX_BUFFER_SIZE ramSpan ∧
    (RxCache.run (SERIAL_RX_BUFFER_SIZE ramSpan) ops).1._rx_buffer_tail
      < SERIAL_RX_BUFFER_SIZE ramSpan ∧
    (RxCache.run (SERIAL_RX_BUFFER_SIZE ramSpan) ops).1._rx_buffer_head
      < 2 ^ rx_buffer_index_bits (SERIAL_RX_BUFFER_SIZE ramSpan) ∧
    (RxCache.run (SERIAL_RX_BUFFER_SIZE ramSpan) ops).1._rx_buffer_tail
      < 2 ^ rx_buffer_index_bits (SERIAL_RX_BUFFER_SIZE ramSpan) ∧
    ((RxCache.run (SERIAL_RX_BUFFER_SIZE ramSpan) ops).2 = [] ↔
      (RxCache.run (SERIAL_RX_BUFFER_SIZE ramSpan) ops).1._rx_buffer_head
        = (RxCache.run (SERIAL_RX_BUFFER_SIZE ramSpan) ops).1._rx_buffer_tail) ∧
    ((RxCache.run (SERIAL_RX_BUFFER_SIZE ramSpan) ops).2.length
        = SERIAL_RX_BUFFER_SIZE ramSpan - 1 ↔
      ((RxCache.run (SERIAL_RX_BUFFER_SIZE ramSpan) ops).1._rx_buffer_tail + 1)
        % SERIAL_RX_BUFFER_SIZE ramSpan
        = (RxCache.run (SERIAL_RX_BUFFER_SIZE ramSpan) ops).1._rx_buffer_head) ∧
    RxCache.count (SERIAL_RX_BUFFER_SIZE ramSpan)
        (RxCache.run (SERIAL_RX_BUFFER_SIZE ramSpan) ops).1
      = ((RxCache.run (SERIAL_RX_BUFFER_SIZE ramSpan) ops).2.length : ℤ) ∧
    (RxCache.run (SERIAL_RX_BUFFER_SIZE ramSpan) ops).2.length
      ≤ SERIAL_RX_BUFFER_SIZE ramSpan - 1 ∧
    (SERIAL_RX_BUFFER_SIZE ramSpan = 32 →
      (RxCache.run (SERIAL_RX_BUFFER_SIZE ramSpan) ops).2.length ≤ 31) ∧
    (RxCache.run (SERIAL_RX_BUFFER_SIZE ramSpan) ops).1.front
      = (RxCache.run (SERIAL_RX_BUFFER_SIZE ramSpan) ops).2.head? := by
  have hs := SERIAL_RX_BUFFER_SIZE_cases ramSpan
  obtain ⟨hh, ht, hl, hc⟩ := RxCache.inv_run _ hs ops
  generalize RxCache.run (SERIAL_RX_BUFFER_SIZE ramSpan) ops = s at hh ht hl hc
  generalize SERIAL_RX_BUFFER_SIZE ramSpan = size at hs hh ht hl hc
  obtain ⟨c, l⟩ := s
  simp only at hh ht hl hc ⊢
  have hlen0 : l = [] ↔ l.length = 0 := by
    constructor
    · intro h; simp [h]
    · intro h; exact List.length_eq_zero.mp h
  refine ⟨hh, ht, ?_, ?_, ?_, ?_, ?_, ?_, ?_, ?_⟩
  · rcases hs with rfl | rfl <;> simp [rx_buffer_index_bits] <;> omega
  · rcases hs with rfl | rfl <;> simp [rx_buffer_index_bits] <;> omega
  · rw [hlen0]; rcases hs with rfl | rfl <;> omega
  · rcases hs with rfl | rfl <;> omega
  · unfold RxCache.count; rcases hs with rfl | rfl <;> omega
  · rcases hs with rfl | rfl <;> omega
  · rcases hs with rfl | rfl <;> omega
  · by_cases he : c._rx_buffer_head = c._rx_buffer_tail
    · have hl0 : l.length = 0 := by rcases hs with rfl | rfl <;> omega
      have : l = [] := hlen0.mpr hl0
      simp [RxCache.front, RxCache.isEmpty, he, this]
    · have hpos : 0 < l.length := by rcases hs with rfl | rfl <;> omega
      have h0 := hc 0 hpos
      have hm : c._rx_buffer_head % size = c._rx_buffer_head := Nat.mod_eq_of_lt hh
      cases l with
      | nil => simp at hpos
      | cons x xs =>
        simp at h0
        simp [RxCache.front, RxCache.isEmpty, he, h0, hm]

/-! ## The FIFO status register -/

set_option maxRecDepth 100000 in
theorem fsr_ofByte_toByte : ∀ b < 256, (sFsrReg_t.ofByte b).toByte = b := by
  decide

theorem fsr_toByte_ofByte (s : sFsrReg_t) :
    sFsrReg_t.ofByte s.toByte = s ∧ s.toByte < 256 := by
  rcases s with ⟨_ | _, _ | _, _ | _, _ | _, _ | _, _ | _, _ | _, _ | _⟩ <;> decide

set_option maxRecDepth 100000 in
theorem fsr_flag_bits : ∀ b < 256, ∀ f : FsrFlag,
    (sFsrReg_t.ofByte b).flag f = b.testBit f.tableBit := by
  decide

/-- Claim C10: a byte seen through `sFsrReg_t` has tBusy at bit 0, tFull at bit 1, tDat at
bit 2, rDat at bit 3, rFpe at bit 4, rFfe at bit 5, rFbi at bit 6 and rFoe at bit 7, the
bits of the documented FSR table; the byte of the decoded flags is the byte again, and the
flags decoded from the byte of eight flags are those flags. -/
theorem fsr_layout_roundtrip (b : Nat) (hb : b < 256) (s : sFsrReg_t) :
    (sFsrReg_t.ofByte b).tBusy = b.testBit 0 ∧ (sFsrReg_t.ofByte b).tFull = b.testBit 1 ∧
    (sFsrReg_t.ofByte b).tDat = b.testBit 2 ∧ (sFsrReg_t.ofByte b).rDat = b.testBit 3 ∧
    (sFsrReg_t.ofByte b).rFpe = b.testBit 4 ∧ (sFsrReg_t.ofByte b).rFfe = b.testBit 5 ∧
    (sFsrReg_t.ofByte b).rFbi = b.testBit 6 ∧ (sFsrReg_t.ofByte b).rFoe = b.testBit 7 ∧
    (∀ f : FsrFlag, (sFsrReg_t.ofByte b).flag f = b.testBit f.tableBit) ∧
    (sFsrReg_t.ofByte b).toByte = b ∧
    sFsrReg_t.ofByte s.toByte = s ∧ s.toByte < 256 := by
  have hf := fsr_flag_bits b hb
  exact ⟨hf FsrFlag.TBUSY, hf FsrFlag.TFULL, hf FsrFlag.TDAT, hf FsrFlag.RDAT,
    hf FsrFlag.RFPE, hf FsrFlag.RFFE, hf FsrFlag.RFBI, hf FsrFlag.RFOE, hf,
    fsr_ofByte_toByte b hb, fsr_toByte_ofByte s⟩

theorem fsr_layout_roundtrip_witness :
    0x89 < 256 ∧
    (sFsrReg_t.ofByte 0x89).tBusy = true ∧ (sFsrReg_t.ofByte 0x89).rDat = true ∧
    (sFsrReg_t.ofByte 0x89).rFoe = true ∧ (sFsrReg_t.ofByte 0x89).tFull = false ∧
    (sFsrReg_t.ofByte 0x89).toByte = 0x89 :=
  have h := fsr_layout_roundtrip 0x89 (by decide)
    { tBusy := true, tFull := false, tDat := false, rDat := true,
      rFpe := false, rFfe := false, rFbi := false, rFoe := true }
  ⟨by decide, h.1, h.2.2.2.1, h.2.2.2.2.2.2.2.1, h.2.1, h.2.2.2.2.2.2.2.2.2.1⟩

end DFRobot_IIC_Serial
